import Mathlib

/-!
Verification development for the UDP P2P handshake/rendezvous server.

The Rust sources (`protocol.rs`, `peer.rs`, `router.rs`, `server.rs`) are
shallowly embedded: `HashMap`s become association lists with overwrite
semantics, `Arc<RwLock<Peer>>` handles become natural-number references
into an explicit store, sends become an output list of
(destination address, message) pairs, and fallible handlers return
`Except`.  Fresh UUIDs (`Uuid::new_v4`) are passed as explicit arguments.
Wall-clock data (`Instant`, `last_seen` timestamps) drives only logging
and the background cache sweep, so it is not part of the step state.
-/

/-- `uuid::Uuid`, an opaque 128-bit identifier. -/
abbrev Uuid := Nat

/-- `std::net::SocketAddr`, kept opaque. -/
abbrev Addr := String

section AssocList

variable {α : Type _} {β : Type _} [DecidableEq α]

/-- Lookup in an association list (first binding wins), mirroring
`HashMap::get`. -/
def alookup (k : α) : List (α × β) → Option β
  | [] => none
  | (k₁, v) :: t => if k₁ = k then some v else alookup k t

/-- Remove every binding of a key, mirroring `HashMap::remove`. -/
def aerase (k : α) : List (α × β) → List (α × β)
  | [] => []
  | (k₁, v) :: t => if k₁ = k then aerase k t else (k₁, v) :: aerase k t

/-- Overwrite-insert, mirroring `HashMap::insert`. -/
def ainsert (k : α) (v : β) (l : List (α × β)) : List (α × β) :=
  (k, v) :: aerase k l

theorem alookup_aerase_self (k : α) (l : List (α × β)) :
    alookup k (aerase k l) = none := by
  induction l with
  | nil => rfl
  | cons h t ih =>
    obtain ⟨k₁, v⟩ := h
    by_cases hk : k₁ = k <;> simp [aerase, alookup, hk, ih]

theorem alookup_aerase_ne {k k' : α} (l : List (α × β)) (h : k' ≠ k) :
    alookup k' (aerase k l) = alookup k' l := by
  induction l with
  | nil => rfl
  | cons hd t ih =>
    obtain ⟨k₁, v⟩ := hd
    by_cases hk : k₁ = k
    · subst hk
      have hne : k₁ ≠ k' := fun hc => h hc.symm
      simp [aerase, alookup, hne, ih]
    · by_cases hk' : k₁ = k'
      · subst hk'
        simp [aerase, alookup, hk]
      · simp [aerase, alookup, hk, hk', ih]

theorem alookup_ainsert_self (k : α) (v : β) (l : List (α × β)) :
    alookup k (ainsert k v l) = some v := by
  simp [ainsert, alookup]

theorem alookup_ainsert_ne {k k' : α} (v : β) (l : List (α × β)) (h : k' ≠ k) :
    alookup k' (ainsert k v l) = alookup k' l := by
  have : k ≠ k' := fun hc => h hc.symm
  simp [ainsert, alookup, this, alookup_aerase_ne l h]

theorem mem_of_alookup_eq_some {k : α} {v : β} {l : List (α × β)}
    (h : alookup k l = some v) : (k, v) ∈ l := by
  induction l with
  | nil => simp [alookup] at h
  | cons hd t ih =>
    obtain ⟨k₁, v₁⟩ := hd
    by_cases hk : k₁ = k
    · subst hk
      simp [alookup] at h
      simp [h]
    · simp [alookup, hk] at h
      exact List.mem_cons_of_mem _ (ih h)

theorem mem_aerase {k k' : α} {v : β} {l : List (α × β)} :
    (k', v) ∈ aerase k l ↔ (k', v) ∈ l ∧ k' ≠ k := by
  induction l with
  | nil => simp [aerase]
  | cons hd t ih =>
    obtain ⟨k₁, v₁⟩ := hd
    by_cases hk : k₁ = k
    · subst hk
      have hae : aerase k₁ ((k₁, v₁) :: t) = aerase k₁ t := by simp [aerase]
      rw [hae, ih]
      constructor
      · rintro ⟨hm, hne⟩
        exact ⟨List.mem_cons_of_mem _ hm, hne⟩
      · rintro ⟨hm, hne⟩
        rcases List.mem_cons.mp hm with h | h
        · exact absurd (congrArg Prod.fst h) hne
        · exact ⟨h, hne⟩
    · have hae : aerase k ((k₁, v₁) :: t) = (k₁, v₁) :: aerase k t := by
        simp [aerase, hk]
      rw [hae]
      constructor
      · intro hm
        rcases List.mem_cons.mp hm with h | h
        · cases h
          exact ⟨List.mem_cons_self .., fun hc => hk hc⟩
        · obtain ⟨hm', hne⟩ := ih.mp h
          exact ⟨List.mem_cons_of_mem _ hm', hne⟩
      · rintro ⟨hm, hne⟩
        rcases List.mem_cons.mp hm with h | h
        · cases h
          exact List.mem_cons_self ..
        · exact List.mem_cons_of_mem _ (ih.mpr ⟨h, hne⟩)

theorem alookup_eq_some_of_mem {k : α} {v : β} {l : List (α × β)}
    (hnd : (l.map Prod.fst).Nodup) (hm : (k, v) ∈ l) : alookup k l = some v := by
  induction l with
  | nil => simp at hm
  | cons hd t ih =>
    obtain ⟨k₁, v₁⟩ := hd
    simp only [List.map_cons, List.nodup_cons] at hnd
    rcases List.mem_cons.mp hm with h | h
    · cases h
      simp [alookup]
    · have hne : k₁ ≠ k := by
        rintro rfl
        exact hnd.1 (List.mem_map.mpr ⟨(k₁, v), h, rfl⟩)
      simp [alookup, hne]
      exact ih hnd.2 h

theorem nodup_keys_aerase (k : α) (l : List (α × β))
    (h : (l.map Prod.fst).Nodup) : ((aerase k l).map Prod.fst).Nodup := by
  induction l with
  | nil => simp [aerase]
  | cons hd t ih =>
    obtain ⟨k₁, v₁⟩ := hd
    simp only [List.map_cons, List.nodup_cons] at h
    by_cases hk : k₁ = k
    · simp [aerase, hk, ih h.2]
    · simp only [aerase, if_neg hk, List.map_cons, List.nodup_cons]
      refine ⟨fun hc => ?_, ih h.2⟩
      obtain ⟨⟨a, b⟩, hab, hfst⟩ := List.mem_map.mp hc
      exact h.1 (List.mem_map.mpr ⟨(a, b), (mem_aerase.mp hab).1, hfst⟩)

theorem nodup_keys_ainsert (k : α) (v : β) (l : List (α × β))
    (h : (l.map Prod.fst).Nodup) : ((ainsert k v l).map Prod.fst).Nodup := by
  simp only [ainsert, List.map_cons, List.nodup_cons]
  refine ⟨fun hc => ?_, nodup_keys_aerase k l h⟩
  obtain ⟨⟨a, b⟩, hab, hfst⟩ := List.mem_map.mp hc
  exact (mem_aerase.mp hab).2 hfst

end AssocList

/-! ## Protocol model (`src/protocol.rs`) -/

/-- `protocol.rs` `MessageType`. -/
inductive MessageType where
  | handshakeRequest
  | handshakeResponse
  | ping
  | pong
  | discoveryRequest
  | discoveryResponse
  | listNodesRequest
  | listNodesResponse
  | data
  | errorMessage
  | disconnect
  | ack
  | retransmit
  | p2pConnect
  | relayRequest
  | relayResponse
  | relayData
deriving DecidableEq, Repr

/-- `protocol.rs` `NodeInfo`. -/
structure NodeInfo where
  id : Uuid
  name : String
  version : String
  listen_addr : Addr
  capabilities : List String
  metadata : List (String × String)
  network_id : String
deriving DecidableEq, Repr

/-- `protocol.rs` `PeerInfo`.  The wall-clock `last_seen` timestamp is not
part of the step state and is omitted. -/
structure PeerInfo where
  id : Uuid
  addr : Addr
  capabilities : List String
deriving DecidableEq, Repr

/-- The JSON payload of a message, restricted to the shapes the embedded
handlers inspect.  `serde_json::from_value::<T>` succeeds exactly on the
constructor for `T`; `other` stands for any further JSON value. -/
inductive Payload where
  | null
  | nodeInfo (ni : NodeInfo)
  | handshakeResp (node_info : NodeInfo) (success : Bool)
      (error_message : Option String) (public_addr : Option Addr)
  | peerList (ps : List PeerInfo)
  | errMsg (e : String)
  | p2p (peer_id : Option Uuid) (peer_addr : Option Addr)
  | routed (source_node destination_node : Uuid) (hop_count max_hops : Nat)
      (route_id : Uuid) (inner_type : MessageType) (inner_payload : Payload)
  | other (tag : Nat)
deriving DecidableEq, Repr

/-- `protocol.rs` `Message`, reduced to the fields the handlers read.
The random per-message `id` and the wall-clock `timestamp` are dropped;
`sender_addr`, `sequence_number`, `requires_ack` and `ack_for` drive only
the ACK side channel, which no claim touches. -/
structure Msg where
  message_type : MessageType
  payload : Payload
deriving DecidableEq, Repr

/-- `Message::error`. -/
def Msg.error (error_message : String) : Msg :=
  ⟨.errorMessage, .errMsg error_message⟩

/-- `Message::handshake_response`. -/
def Msg.handshake_response (node_info : NodeInfo) (success : Bool) : Msg :=
  ⟨.handshakeResponse, .handshakeResp node_info success none none⟩

/-- `Message::discovery_response`. -/
def Msg.discovery_response (peers : List PeerInfo) : Msg :=
  ⟨.discoveryResponse, .peerList peers⟩

/-- `Message::pong`. -/
def Msg.pong : Msg := ⟨.pong, .null⟩

/-- `HandshakeProtocol::validate_handshake_request`. -/
def validate_handshake_request (message : Msg) : Except String NodeInfo :=
  if message.message_type ≠ .handshakeRequest then
    .error "不是握手请求消息"
  else
    match message.payload with
    | .nodeInfo node_info =>
        if node_info.name = "" then .error "节点名称不能为空"
        else if node_info.version = "" then .error "节点版本不能为空"
        else .ok node_info
    | _ => .error "解析节点信息失败"

/-! ## Peer registry model (`src/peer.rs`) -/

/-- `peer.rs` `PeerStatus`. -/
inductive PeerStatus where
  | connecting
  | connected
  | handshaking
  | authenticated
  | disconnected
  | errored (msg : String)
deriving DecidableEq, Repr

/-- `peer.rs` `Peer`.  `connection.peer_addr()` is the immutable `addr`
field; the monotonic `last_ping` / `created_at` instants are abstracted to
an optional counter and dropped respectively. -/
structure Peer where
  id : Uuid
  node_info : Option NodeInfo
  addr : Addr
  status : PeerStatus
  last_ping : Option Nat
deriving DecidableEq, Repr

/-- `Peer::is_authenticated`. -/
def Peer.is_authenticated (p : Peer) : Bool :=
  p.status = .authenticated

/-- `Peer::is_connected`. -/
def Peer.is_connected (p : Peer) : Bool :=
  p.status = .connected ∨ p.status = .authenticated

/-- The state of a `PeerManager`.  `Arc<RwLock<Peer>>` handles are
references (`Nat`) into `store`; `peers` and `peers_by_addr` are the two
`HashMap` indexes holding references, exactly as in the source. -/
structure PMState where
  store : List (Nat × Peer)
  next_ref : Nat
  peers : List (Uuid × Nat)
  peers_by_addr : List (Addr × Nat)
  local_node_info : NodeInfo
  max_connections : Nat
deriving DecidableEq, Repr

namespace PeerManager

/-- `Peer::new`: a fresh record in `Connecting` state with a freshly
generated random id (passed explicitly). -/
def Peer.new (fresh_id : Uuid) (conn_addr : Addr) : Peer :=
  { id := fresh_id, node_info := none, addr := conn_addr,
    status := .connecting, last_ping := none }

/-- `PeerManager::add_peer`.  Fails at capacity, otherwise creates a
record and inserts it in both indexes. -/
def add_peer (s : PMState) (fresh_id : Uuid) (conn_addr : Addr) :
    Except String (PMState × Nat) :=
  if s.peers.length ≥ s.max_connections then
    .error "已达到最大连接数限制"
  else
    let r := s.next_ref
    let p := Peer.new fresh_id conn_addr
    .ok ({ s with
            store := ainsert r p s.store,
            next_ref := r + 1,
            peers := ainsert fresh_id r s.peers,
            peers_by_addr := ainsert conn_addr r s.peers_by_addr }, r)

/-- `PeerManager::remove_peer`: remove from the id index, then remove the
record's address from the address index. -/
def remove_peer (s : PMState) (peer_id : Uuid) : PMState × Option Nat :=
  match alookup peer_id s.peers with
  | none => (s, none)
  | some r =>
      let s₁ := { s with peers := aerase peer_id s.peers }
      match alookup r s.store with
      | none => (s₁, some r)
      | some p =>
          ({ s₁ with peers_by_addr := aerase p.addr s₁.peers_by_addr }, some r)

/-- `PeerManager::get_peer`. -/
def get_peer (s : PMState) (peer_id : Uuid) : Option Nat :=
  alookup peer_id s.peers

/-- `PeerManager::get_peer_by_addr`. -/
def get_peer_by_addr (s : PMState) (addr : Addr) : Option Nat :=
  alookup addr s.peers_by_addr

/-- Dereference a handle. -/
def deref (s : PMState) (r : Nat) : Option Peer :=
  alookup r s.store

/-- `get_peer` followed by reading the record. -/
def get_peer_record (s : PMState) (peer_id : Uuid) : Option Peer :=
  (get_peer s peer_id).bind (deref s)

/-- `PeerManager::get_or_create_peer_by_addr`. -/
def get_or_create_peer_by_addr (s : PMState) (fresh_id : Uuid)
    (conn_addr : Addr) : Except String (PMState × Nat) :=
  match get_peer_by_addr s conn_addr with
  | some r => .ok (s, r)
  | none => add_peer s fresh_id conn_addr

/-- `PeerManager::get_authenticated_peers`, with each handle paired with
the record it dereferences to. -/
def get_authenticated_peers (s : PMState) : List (Nat × Peer) :=
  s.peers.filterMap fun kv =>
    match alookup kv.2 s.store with
    | some p => if p.is_authenticated then some (kv.2, p) else none
    | none => none

/-- `PeerManager::get_peer_info_list`: `PeerInfo` built from the
`NodeInfo` of every authenticated peer that has one. -/
def get_peer_info_list (s : PMState) : List PeerInfo :=
  (get_authenticated_peers s).filterMap fun rp =>
    match rp.2.node_info with
    | some ni => some ⟨ni.id, ni.listen_addr, ni.capabilities⟩
    | none => none

/-- Modelled from the spec: `PeerManager::get_peer_info_list_excluding`
is called from `server.rs` (discovery replies and the debounced
broadcast) but its definition is absent from `src/`.  Spec §4.2: "list of
PeerInfo (id, addr, last_seen timestamp, capabilities) for all
Authenticated peers except the given one if supplied". -/
def get_peer_info_list_excluding (s : PMState) (exclude : Option Uuid) :
    List PeerInfo :=
  (get_authenticated_peers s).filterMap fun rp =>
    if exclude = some rp.2.id then none
    else some ⟨rp.2.id, rp.2.addr,
               (rp.2.node_info.map NodeInfo.capabilities).getD []⟩

/-- `PeerManager::handle_handshake_request`, returning the new state, the
messages sent (destination address first) and the handler result. -/
def handle_handshake_request (s : PMState) (r : Nat) (message : Msg) :
    PMState × List (Addr × Msg) × Except String Unit :=
  match deref s r with
  | none => (s, [], .error "dangling peer handle")
  | some peer =>
    match validate_handshake_request message with
    | .error e => (s, [], .error ("握手请求验证失败: " ++ e))
    | .ok node_info =>
      if node_info.network_id ≠ s.local_node_info.network_id then
        let error_msg := "网络ID不匹配: 期望 " ++ s.local_node_info.network_id
          ++ "，收到 " ++ node_info.network_id
        (s, [(peer.addr, Msg.error error_msg)], .error error_msg)
      else if (alookup node_info.id s.peers).isSome then
        let error_msg := "节点ID " ++ toString node_info.id ++ " 已存在"
        (s, [(peer.addr, Msg.error error_msg)], .error error_msg)
      else if node_info.network_id = "" then
        let peer' := { peer with status := .errored "缺少 network_id" }
        ({ s with store := ainsert r peer' s.store },
         [(peer.addr, Msg.error "握手请求缺少 network_id")],
         .error "缺少 network_id")
      else
        let peer' := { peer with
          id := node_info.id, node_info := some node_info,
          status := .authenticated }
        let s₁ := { s with store := ainsert r peer' s.store }
        let old_key := (s₁.peers.find? fun kv => kv.2 = r).map Prod.fst
        let peers₁ := match old_key with
          | some k => aerase k s₁.peers
          | none => s₁.peers
        let s₂ := { s₁ with peers := ainsert node_info.id r peers₁ }
        let local_info :=
          { s.local_node_info with network_id := node_info.network_id }
        (s₂, [(peer.addr, Msg.handshake_response local_info true)], .ok ())

/-- `PeerManager::cleanup_disconnected_peers`. -/
def cleanup_disconnected_peers (s : PMState) : PMState :=
  let to_remove := s.peers.filterMap fun kv =>
    match alookup kv.2 s.store with
    | some p => if p.is_connected then none else some kv.1
    | none => none
  to_remove.foldl (fun st pid => (remove_peer st pid).1) s

end PeerManager

/-! ## Router model (`src/router.rs`) -/

/-- `router.rs` `RoutingTable`. -/
structure RoutingTable where
  routes : List (Uuid × Uuid)
  distances : List (Uuid × Nat)
deriving DecidableEq, Repr

namespace RoutingTable

/-- `RoutingTable::new`. -/
def new : RoutingTable := ⟨[], []⟩

/-- `RoutingTable::add_route`: only a strictly shorter distance replaces
an existing entry. -/
def add_route (t : RoutingTable) (destination next_hop : Uuid)
    (distance : Nat) : RoutingTable :=
  match alookup destination t.distances with
  | some existing_distance =>
      if distance ≥ existing_distance then t
      else ⟨ainsert destination next_hop t.routes,
            ainsert destination distance t.distances⟩
  | none =>
      ⟨ainsert destination next_hop t.routes,
       ainsert destination distance t.distances⟩

/-- `RoutingTable::get_next_hop`. -/
def get_next_hop (t : RoutingTable) (destination : Uuid) : Option Uuid :=
  alookup destination t.routes

/-- `RoutingTable::get_distance`. -/
def get_distance (t : RoutingTable) (destination : Uuid) : Option Nat :=
  alookup destination t.distances

/-- `RoutingTable::remove_route`. -/
def remove_route (t : RoutingTable) (destination : Uuid) : RoutingTable :=
  ⟨aerase destination t.routes, aerase destination t.distances⟩

/-- `RoutingTable::remove_routes_via`. -/
def remove_routes_via (t : RoutingTable) (next_hop : Uuid) : RoutingTable :=
  let to_remove := t.routes.filterMap fun kv =>
    if kv.2 = next_hop then some kv.1 else none
  to_remove.foldl (fun t₁ dest => t₁.remove_route dest) t

end RoutingTable

/-- `router.rs` `RoutedMessage`. -/
structure RoutedMessage where
  original_message : Msg
  source_node : Uuid
  destination_node : Uuid
  hop_count : Nat
  max_hops : Nat
  route_id : Uuid
deriving DecidableEq, Repr

namespace RoutedMessage

/-- `RoutedMessage::increment_hop`: bump the hop count; true iff still
within the bound.  The source increments a `u32`; this model keeps the
hop count unbounded (the spec's "HopCount: integer", spec section 3) and
agrees with the source exactly when `hop_count + 1 < 2^32`.  The wrap
the source performs at `hop_count = u32::MAX` in a release build is
modelled separately by `increment_hop_u32` below. -/
def increment_hop (rm : RoutedMessage) : RoutedMessage × Bool :=
  let rm' := { rm with hop_count := rm.hop_count + 1 }
  (rm', decide (rm'.hop_count ≤ rm.max_hops))

/-- The `u32` semantics of `RoutedMessage::increment_hop` in a release
build: `hop_count += 1` wraps at `2^32` (a debug build instead panics on
the overflow).  This is the boundary behaviour the unbounded model above
elides; claim C5 turns on it. -/
def increment_hop_u32 (rm : RoutedMessage) : RoutedMessage × Bool :=
  let rm' := { rm with hop_count := (rm.hop_count + 1) % 4294967296 }
  (rm', decide (rm'.hop_count ≤ rm.max_hops))

/-- `RoutedMessage::to_message`: serialize the envelope into a `Data`
message payload. -/
def to_message (rm : RoutedMessage) : Msg :=
  ⟨.data, .routed rm.source_node rm.destination_node rm.hop_count
     rm.max_hops rm.route_id rm.original_message.message_type
     rm.original_message.payload⟩

/-- `RoutedMessage::from_message`. -/
def from_message (message : Msg) : Except String RoutedMessage :=
  if message.message_type ≠ .data then .error "不是数据消息"
  else
    match message.payload with
    | .routed src dst hops maxh rid ity ipl =>
        .ok ⟨⟨ity, ipl⟩, src, dst, hops, maxh, rid⟩
    | _ => .error "解析路由消息失败"

end RoutedMessage

/-- The state of a `MessageRouter`: the routing table and the dedup
cache.  Cache values are wall-clock insertion instants used only by the
background eviction sweep, so the cache is kept as its key set. -/
structure RouterState where
  table : RoutingTable
  local_node_id : Uuid
  cache : List Uuid
deriving DecidableEq, Repr

namespace MessageRouter

/-- `MessageRouter::is_message_cached`. -/
def is_message_cached (rs : RouterState) (message_id : Uuid) : Bool :=
  rs.cache.contains message_id

/-- `MessageRouter::cache_message_id`. -/
def cache_message_id (rs : RouterState) (message_id : Uuid) : RouterState :=
  { rs with cache := message_id :: rs.cache }

/-- `MessageRouter::broadcast_message`: the sends it performs — the
envelope, to every authenticated peer other than the source.  Individual
send failures only affect counters, so the result is always ok. -/
def broadcast_sends (pm : PMState) (rm : RoutedMessage) :
    List (Addr × Msg) :=
  (PeerManager.get_authenticated_peers pm).filterMap fun rp =>
    if rp.2.id = rm.source_node then none
    else some (rp.2.addr, rm.to_message)

/-- `MessageRouter::forward_message`: returns the router state after the
call, the messages sent, and the call result.  The peer registry `pm` is
only read. -/
def forward_message (rs : RouterState) (pm : PMState)
    (routed_message : RoutedMessage) :
    RouterState × List (Addr × Msg) × Except String Unit :=
  if is_message_cached rs routed_message.route_id then
    (rs, [], .ok ())
  else
    let rs₁ := cache_message_id rs routed_message.route_id
    let (rm, within) := routed_message.increment_hop
    if !within then
      (rs₁, [], .error "达到最大跳数限制")
    else if rm.destination_node = rs₁.local_node_id then
      -- `handle_local_message` only logs
      (rs₁, [], .ok ())
    else
      match rs₁.table.get_next_hop rm.destination_node with
      | some next_hop_id =>
          match PeerManager.get_peer_record pm next_hop_id with
          | some peer => (rs₁, [(peer.addr, rm.to_message)], .ok ())
          | none =>
              let rs₂ :=
                { rs₁ with table := rs₁.table.remove_routes_via next_hop_id }
              (rs₂, broadcast_sends pm rm, .ok ())
      | none => (rs₁, broadcast_sends pm rm, .ok ())

/-- `MessageRouter::update_routing_table`. -/
def update_routing_table (rs : RouterState) (node_id next_hop : Uuid)
    (distance : Nat) : RouterState :=
  { rs with table := rs.table.add_route node_id next_hop distance }

/-- `MessageRouter::remove_node_routes`. -/
def remove_node_routes (rs : RouterState) (node_id : Uuid) : RouterState :=
  { rs with table :=
      (rs.table.remove_route node_id).remove_routes_via node_id }

end MessageRouter

/-! ## Server dispatch arms (`src/server.rs`) -/

namespace P2PServer

/-- `P2PServer::handle_discovery_request`: reply to the requesting peer
with the peer-info list excluding the requester's id. -/
def handle_discovery_request (s : PMState) (r : Nat) : List (Addr × Msg) :=
  match PeerManager.deref s r with
  | none => []
  | some requester =>
      [(requester.addr,
        Msg.discovery_response
          (PeerManager.get_peer_info_list_excluding s (some requester.id)))]

/-- The body of the debounced broadcast task in
`P2PServer::schedule_peerlist_broadcast`: for every authenticated peer
not equal to the exclude id, send a `DiscoveryResponse` with the list
excluding that peer's own id. -/
def debounced_broadcast_sends (s : PMState) (exclude_id : Option Uuid) :
    List (Addr × Msg) :=
  (PeerManager.get_authenticated_peers s).filterMap fun rp =>
    if exclude_id = some rp.2.id then none
    else some (rp.2.addr,
      Msg.discovery_response
        (PeerManager.get_peer_info_list_excluding s (some rp.2.id)))

/-- The `peer_id` extraction of the `P2PConnect` arm:
`payload.get("peer_id").and_then(as_str).and_then(parse)`. -/
def payload_peer_id : Payload → Option Uuid
  | .p2p peer_id _ => peer_id
  | _ => none

/-- The `MessageType::P2PConnect` arm of `P2PServer::handle_message`.
The arm performs no registry or router writes, so the returned state is
the input state; the second component lists the messages sent. -/
def handle_p2p_connect (s : PMState) (r : Nat) (message : Msg) :
    PMState × List (Addr × Msg) :=
  match PeerManager.deref s r with
  | none => (s, [])
  | some requester =>
    match payload_peer_id message.payload with
    | none => (s, [(requester.addr, Msg.error "缺少或无效的 peer_id")])
    | some target_id =>
      if requester.id = target_id then
        (s, [(requester.addr, Msg.error "不能与自身建立直连")])
      else
        match PeerManager.get_peer_record s target_id with
        | some target_peer =>
            if !target_peer.is_authenticated then
              (s, [(requester.addr,
                    Msg.error ("目标节点未认证: " ++ toString target_id))])
            else
              (s, [(requester.addr,
                    ⟨.p2pConnect, .p2p (some target_id) (some target_peer.addr)⟩),
                   (target_peer.addr,
                    ⟨.p2pConnect, .p2p (some requester.id) (some requester.addr)⟩)])
        | none =>
            (s, [(requester.addr,
                  Msg.error ("目标节点未找到或不可达: " ++ toString target_id))])

end P2PServer

/-! ## Registry well-formedness -/

namespace PeerManager

/-- Well-formedness of the dual-indexed registry: every id-index entry
dereferences to a live record whose `id` is that key and whose address is
indexed back to the same handle; handles are below `next_ref`; id-index
keys are unique. -/
def WfState (s : PMState) : Prop :=
  (∀ kv ∈ s.peers, ∃ p, alookup kv.2 s.store = some p ∧ p.id = kv.1 ∧
      alookup p.addr s.peers_by_addr = some kv.2) ∧
  (∀ kv ∈ s.store, kv.1 < s.next_ref) ∧
  (s.peers.map Prod.fst).Nodup

/-- Spec invariant P2 as an executable check: for every registered peer
whose record is `Authenticated`, `get_peer` on its id and
`get_peer_by_addr` on its address yield the same handle. -/
def registry_consistent (s : PMState) : Bool :=
  s.peers.all fun kv =>
    match alookup kv.2 s.store with
    | none => true
    | some p =>
        if p.status = PeerStatus.authenticated then
          decide (get_peer s p.id = some kv.2 ∧
                  get_peer_by_addr s p.addr = some kv.2)
        else true

theorem registry_consistent_of_wf {s : PMState} (hwf : WfState s) :
    registry_consistent s = true := by
  obtain ⟨h₁, _, hnd⟩ := hwf
  rw [registry_consistent, List.all_eq_true]
  intro kv hkv
  obtain ⟨p, hp, hid, haddr⟩ := h₁ kv hkv
  rw [hp]
  show (if p.status = PeerStatus.authenticated then
      decide (get_peer s p.id = some kv.2 ∧ get_peer_by_addr s p.addr = some kv.2)
    else true) = true
  by_cases hs : p.status = PeerStatus.authenticated
  · rw [if_pos hs]
    simp only [decide_eq_true_eq]
    refine ⟨?_, haddr⟩
    rw [get_peer, hid]
    exact alookup_eq_some_of_mem hnd hkv
  · rw [if_neg hs]

theorem wf_remove_peer {s : PMState} (peer_id : Uuid) (hwf : WfState s) :
    WfState (remove_peer s peer_id).1 := by
  obtain ⟨h₁, h₂, hnd⟩ := hwf
  rw [remove_peer]
  cases hlk : alookup peer_id s.peers with
  | none => exact ⟨h₁, h₂, hnd⟩
  | some r =>
    obtain ⟨p, hp, hpid, hpaddr⟩ := h₁ (peer_id, r) (mem_of_alookup_eq_some hlk)
    simp only at hp hpid hpaddr
    simp only [hp]
    refine ⟨?_, h₂, nodup_keys_aerase _ _ hnd⟩
    intro kv hkv
    obtain ⟨hkv', hkne⟩ := mem_aerase.mp (by exact hkv)
    obtain ⟨q, hq, hqid, hqaddr⟩ := h₁ kv hkv'
    refine ⟨q, hq, hqid, ?_⟩
    have haddr_ne : q.addr ≠ p.addr := by
      intro he
      rw [he, hpaddr] at hqaddr
      have hrkv : kv.2 = r := by
        exact (Option.some.injEq ..).mp hqaddr.symm
      rw [hrkv, hp] at hq
      have hqp : q = p := (Option.some.injEq ..).mp hq.symm
      rw [hqp, hpid] at hqid
      exact hkne hqid.symm
    rw [alookup_aerase_ne _ haddr_ne]
    exact hqaddr

theorem wf_add_peer {s s' : PMState} {fresh_id : Uuid} {conn_addr : Addr}
    {r : Nat} (hwf : WfState s)
    (haddr : alookup conn_addr s.peers_by_addr = none)
    (h : add_peer s fresh_id conn_addr = .ok (s', r)) : WfState s' := by
  obtain ⟨h₁, h₂, hnd⟩ := hwf
  rw [add_peer] at h
  split at h
  · exact absurd h (by simp)
  · obtain ⟨hs', hr⟩ := Prod.mk.injEq .. ▸ (Except.ok.injEq ..).mp h
    subst hs' hr
    refine ⟨?_, ?_, nodup_keys_ainsert _ _ _ hnd⟩
    · intro kv hkv
      rcases List.mem_cons.mp hkv with hkv | hkv
      · cases hkv
        refine ⟨Peer.new fresh_id conn_addr, ?_, rfl, ?_⟩
        · exact alookup_ainsert_self ..
        · exact alookup_ainsert_self ..
      · obtain ⟨hkv', hkne⟩ := mem_aerase.mp hkv
        obtain ⟨q, hq, hqid, hqaddr⟩ := h₁ kv hkv'
        have hrne : kv.2 ≠ s.next_ref := by
          intro he
          have := h₂ (kv.2, q) (mem_of_alookup_eq_some hq)
          simp only at this
          exact absurd (he ▸ this) (lt_irrefl _)
        have haddrne : q.addr ≠ conn_addr := by
          intro he
          rw [he, haddr] at hqaddr
          exact Option.noConfusion hqaddr
        exact ⟨q, by rw [alookup_ainsert_ne _ _ hrne]; exact hq, hqid,
               by rw [alookup_ainsert_ne _ _ haddrne]; exact hqaddr⟩
    · intro kv hkv
      rcases List.mem_cons.mp hkv with hkv | hkv
      · cases hkv
        exact Nat.lt_succ_self _
      · obtain ⟨hkv', _⟩ := mem_aerase.mp hkv
        exact Nat.lt_succ_of_lt (h₂ kv hkv')

theorem wf_get_or_create_peer_by_addr {s s' : PMState} {fresh_id : Uuid}
    {conn_addr : Addr} {r : Nat} (hwf : WfState s)
    (h : get_or_create_peer_by_addr s fresh_id conn_addr = .ok (s', r)) :
    WfState s' := by
  rw [get_or_create_peer_by_addr] at h
  cases hlk : get_peer_by_addr s conn_addr with
  | some r₀ =>
    rw [hlk] at h
    obtain ⟨hs', _⟩ := Prod.mk.injEq .. ▸ (Except.ok.injEq ..).mp h
    exact hs' ▸ hwf
  | none =>
    rw [hlk] at h
    exact wf_add_peer hwf hlk h

theorem wf_handle_handshake_request {s : PMState} {r : Nat} {message : Msg}
    (hwf : WfState s) (hreg : ∃ k, alookup k s.peers = some r) :
    WfState (handle_handshake_request s r message).1 := by
  obtain ⟨h₁, h₂, hnd⟩ := hwf
  obtain ⟨k, hreg⟩ := hreg
  obtain ⟨p₀, hp₀, hp₀id, hp₀addr⟩ := h₁ (k, r) (mem_of_alookup_eq_some hreg)
  simp only at hp₀ hp₀id hp₀addr
  rw [handle_handshake_request]
  cases hderef : deref s r with
  | none => exact ⟨h₁, h₂, hnd⟩
  | some peer =>
  have hpeer : p₀ = peer := by
    rw [deref, hp₀] at hderef
    exact (Option.some.injEq ..).mp hderef
  subst hpeer
  cases hval : validate_handshake_request message with
  | error e => exact ⟨h₁, h₂, hnd⟩
  | ok node_info =>
  simp only
  split
  · exact ⟨h₁, h₂, hnd⟩
  split
  · exact ⟨h₁, h₂, hnd⟩
  case isFalse hdup =>
  split
  · -- missing network_id: only the record at r is rewritten
    refine ⟨?_, ?_, hnd⟩
    · intro kv hkv
      obtain ⟨q, hq, hqid, hqaddr⟩ := h₁ kv hkv
      by_cases hr : kv.2 = r
      · have hq' : q = p₀ := by
          rw [hr, hp₀] at hq
          exact (Option.some.injEq ..).mp hq.symm
        refine ⟨{ p₀ with status := .errored "缺少 network_id" }, ?_, ?_, ?_⟩
        · rw [hr]
          exact alookup_ainsert_self r _ s.store
        · show p₀.id = kv.1
          rw [← hq']
          exact hqid
        · show alookup p₀.addr s.peers_by_addr = some kv.2
          rw [← hq']
          exact hqaddr
      · exact ⟨q, by rw [alookup_ainsert_ne _ _ hr]; exact hq, hqid, hqaddr⟩
    · intro kv hkv
      rcases List.mem_cons.mp hkv with hkv | hkv
      · cases hkv
        exact h₂ (r, p₀) (mem_of_alookup_eq_some hp₀)
      · exact h₂ kv (mem_aerase.mp hkv).1
  -- success: the record at r is rewritten and the id index rekeyed
  cases hfind : s.peers.find? (fun kv => kv.2 = r) with
  | none =>
    exfalso
    have := List.find?_eq_none.mp hfind (k, r) (mem_of_alookup_eq_some hreg)
    simp at this
  | some kv₀ =>
  have hkv₀r : kv₀.2 = r := by
    have := List.find?_some hfind
    simpa using this
  have hkv₀mem : kv₀ ∈ s.peers := List.mem_of_find?_eq_some hfind
  have hkv₀k : kv₀.1 = k := by
    obtain ⟨q, hq, hqid, hqaddr⟩ := h₁ kv₀ hkv₀mem
    rw [hkv₀r, hp₀] at hq
    have hq' : q = p₀ := (Option.some.injEq ..).mp hq.symm
    rw [← hqid, hq']
    exact hp₀id
  have hkv₀ : kv₀ = (k, r) := Prod.ext hkv₀k hkv₀r
  subst hkv₀
  have hmatch : (match Option.map Prod.fst (some ((k : Uuid), (r : Nat))) with
      | some k₁ => aerase k₁ s.peers
      | none => s.peers) = aerase k s.peers := rfl
  simp only [hmatch]
  refine ⟨?_, ?_, nodup_keys_ainsert _ _ _ (nodup_keys_aerase _ _ hnd)⟩
  · intro kv hkv
    rcases List.mem_cons.mp hkv with hkv | hkv
    · cases hkv
      refine ⟨(⟨node_info.id, some node_info, p₀.addr, .authenticated,
               p₀.last_ping⟩ : Peer), ?_, rfl, ?_⟩
      · exact alookup_ainsert_self r _ s.store
      · exact hp₀addr
    · obtain ⟨hkv₁, hkne₁⟩ := mem_aerase.mp hkv
      obtain ⟨hkv₂, hkne₂⟩ := mem_aerase.mp hkv₁
      obtain ⟨q, hq, hqid, hqaddr⟩ := h₁ kv hkv₂
      have hrne : kv.2 ≠ r := by
        intro he
        rw [he, hp₀] at hq
        have hq' : q = p₀ := (Option.some.injEq ..).mp hq.symm
        rw [hq', hp₀id] at hqid
        exact hkne₂ hqid.symm
      exact ⟨q, by rw [alookup_ainsert_ne _ _ hrne]; exact hq, hqid, hqaddr⟩
  · intro kv hkv
    rcases List.mem_cons.mp hkv with hkv | hkv
    · cases hkv
      exact h₂ (r, p₀) (mem_of_alookup_eq_some hp₀)
    · exact h₂ kv (mem_aerase.mp hkv).1

theorem wf_foldl_remove (l : List Uuid) :
    ∀ s : PMState, WfState s →
      WfState (l.foldl (fun st pid => (remove_peer st pid).1) s) := by
  induction l with
  | nil =>
    intro s h
    exact h
  | cons a t ih =>
    intro s h
    exact ih _ (wf_remove_peer a h)

theorem wf_cleanup_disconnected_peers {s : PMState} (hwf : WfState s) :
    WfState (cleanup_disconnected_peers s) :=
  wf_foldl_remove _ s hwf

end PeerManager

/-! ## Branch equations for the handshake handler -/

namespace PeerManager

/-- Failed validation: the handler returns before sending anything. -/
theorem hsr_eq_validate_error {s : PMState} {r : Nat} {m : Msg} {peer : Peer}
    {e : String} (hderef : deref s r = some peer)
    (hval : validate_handshake_request m = .error e) :
    handle_handshake_request s r m =
      (s, [], .error ("握手请求验证失败: " ++ e)) := by
  rw [handle_handshake_request, hderef, hval]

/-- Network-id mismatch: one Error reply, no state change. -/
theorem hsr_eq_mismatch {s : PMState} {r : Nat} {m : Msg} {peer : Peer}
    {ni : NodeInfo} (hderef : deref s r = some peer)
    (hval : validate_handshake_request m = .ok ni)
    (hnet : ni.network_id ≠ s.local_node_info.network_id) :
    handle_handshake_request s r m =
      (s,
       [(peer.addr, Msg.error ("网络ID不匹配: 期望 "
          ++ s.local_node_info.network_id ++ "，收到 " ++ ni.network_id))],
       .error ("网络ID不匹配: 期望 "
          ++ s.local_node_info.network_id ++ "，收到 " ++ ni.network_id)) := by
  rw [handle_handshake_request, hderef, hval]
  simp only [if_pos hnet]

/-- Duplicate node id: one Error reply, no state change. -/
theorem hsr_eq_duplicate {s : PMState} {r : Nat} {m : Msg} {peer : Peer}
    {ni : NodeInfo} {r' : Nat} (hderef : deref s r = some peer)
    (hval : validate_handshake_request m = .ok ni)
    (hnet : ni.network_id = s.local_node_info.network_id)
    (hdup : alookup ni.id s.peers = some r') :
    handle_handshake_request s r m =
      (s,
       [(peer.addr, Msg.error ("节点ID " ++ toString ni.id ++ " 已存在"))],
       .error ("节点ID " ++ toString ni.id ++ " 已存在")) := by
  have h₁ : (ni.network_id ≠ s.local_node_info.network_id) = False := by
    simp [hnet]
  have h₂ : (alookup ni.id s.peers).isSome = true := by
    rw [hdup]
    rfl
  rw [handle_handshake_request, hderef, hval]
  simp only [h₁, h₂, if_false, eq_self_iff_true, if_true]

/-- Missing network id: one Error reply and the record transitions to
`Error`. -/
theorem hsr_eq_missing_network_id {s : PMState} {r : Nat} {m : Msg}
    {peer : Peer} {ni : NodeInfo} (hderef : deref s r = some peer)
    (hval : validate_handshake_request m = .ok ni)
    (hnet : ni.network_id = s.local_node_info.network_id)
    (hdup : alookup ni.id s.peers = none)
    (hempty : ni.network_id = "") :
    handle_handshake_request s r m =
      ({ s with store :=
          ainsert r { peer with status := .errored "缺少 network_id" } s.store },
       [(peer.addr, Msg.error "握手请求缺少 network_id")],
       .error "缺少 network_id") := by
  have h₁ : (ni.network_id ≠ s.local_node_info.network_id) = False := by
    simp [hnet]
  have h₂ : (alookup ni.id s.peers).isSome = false := by
    rw [hdup]
    rfl
  have h₄ : s.local_node_info.network_id = "" := hnet.symm.trans hempty
  rw [handle_handshake_request, hderef, hval]
  simp only [h₁, h₂, Bool.false_eq_true, if_false, hempty, h₄, ne_eq,
    eq_self_iff_true, not_true, if_true]

/-- Under well-formedness, the first id-index entry whose handle is `r`
is the one `alookup` finds. -/
theorem find_old_key {s : PMState} {k : Uuid} {r : Nat} (hwf : WfState s)
    (hk : alookup k s.peers = some r) :
    s.peers.find? (fun kv => kv.2 = r) = some (k, r) := by
  obtain ⟨h₁, _, _⟩ := hwf
  obtain ⟨p₀, hp₀, hp₀id, _⟩ := h₁ (k, r) (mem_of_alookup_eq_some hk)
  simp only at hp₀ hp₀id
  cases hfind : s.peers.find? (fun kv => kv.2 = r) with
  | none =>
    exfalso
    have := List.find?_eq_none.mp hfind (k, r) (mem_of_alookup_eq_some hk)
    simp at this
  | some kv₀ =>
    obtain ⟨a, b⟩ := kv₀
    have hkv₀r : b = r := by
      have := List.find?_some hfind
      simpa using this
    subst hkv₀r
    have hkv₀k : a = k := by
      obtain ⟨q, hq, hqid, _⟩ := h₁ (a, b) (List.mem_of_find?_eq_some hfind)
      simp only at hq hqid
      rw [hp₀] at hq
      have hq' : q = p₀ := (Option.some.injEq ..).mp hq.symm
      rw [← hqid, hq']
      exact hp₀id
    rw [hkv₀k]

/-- Successful handshake: the record is rewritten in place, the id index
is rekeyed from the pending key `k` to the claimed id, and a success
response echoing the client network id is sent. -/
theorem hsr_eq_success {s : PMState} {r : Nat} {m : Msg} {peer : Peer}
    {ni : NodeInfo} {k : Uuid} (hwf : WfState s)
    (hderef : deref s r = some peer)
    (hval : validate_handshake_request m = .ok ni)
    (hnet : ni.network_id = s.local_node_info.network_id)
    (hdup : alookup ni.id s.peers = none)
    (hnonempty : ni.network_id ≠ "")
    (hreg : alookup k s.peers = some r) :
    handle_handshake_request s r m =
      ({ s with
          store := ainsert r
            { peer with
              id := ni.id, node_info := some ni, status := .authenticated }
            s.store,
          peers := ainsert ni.id r (aerase k s.peers) },
       [(peer.addr, Msg.handshake_response
          { s.local_node_info with network_id := ni.network_id } true)],
       .ok ()) := by
  have h₁ : (ni.network_id ≠ s.local_node_info.network_id) = False := by
    simp [hnet]
  have h₂ : (alookup ni.id s.peers).isSome = false := by
    rw [hdup]
    rfl
  have h₃ : (ni.network_id = "") = False := by
    simp [hnonempty]
  rw [handle_handshake_request, hderef, hval]
  simp only [h₁, h₂, h₃, Bool.false_eq_true, if_false,
    find_old_key hwf hreg, Option.map, eq_self_iff_true, if_true]

end PeerManager

/-! ## Branch equations for the router -/

namespace MessageRouter

/-- A cached route id short-circuits: nothing sent, no state change. -/
theorem forward_cached_noop {rs : RouterState} {pm : PMState}
    {env : RoutedMessage}
    (hc : is_message_cached rs env.route_id = true) :
    forward_message rs pm env = (rs, [], .ok ()) := by
  rw [forward_message]
  simp only [hc, eq_self_iff_true, if_true]

/-- After any `forward_message` call, the envelope's route id is in the
dedup cache. -/
theorem route_id_cached_after_forward (rs : RouterState) (pm : PMState)
    (env : RoutedMessage) :
    is_message_cached (forward_message rs pm env).1 env.route_id = true := by
  rw [forward_message]
  by_cases hc : is_message_cached rs env.route_id = true
  · simp only [hc, eq_self_iff_true, if_true]
  · have hc' : is_message_cached rs env.route_id = false := by
      simpa using hc
    simp only [hc', Bool.false_eq_true, if_false,
      RoutedMessage.increment_hop, cache_message_id]
    split
    · simp [is_message_cached]
    split
    · simp [is_message_cached]
    split
    · split
      · simp [is_message_cached]
      · simp [is_message_cached]
    · simp [is_message_cached]

/-- Next hop resolved and the handle dereferences: the envelope goes
directly to that peer, whatever its status. -/
theorem forward_direct_eq {rs : RouterState} {pm : PMState}
    {env : RoutedMessage} {next_hop : Uuid} {peer : Peer}
    (hc : is_message_cached rs env.route_id = false)
    (hmax : env.hop_count + 1 ≤ env.max_hops)
    (hdest : env.destination_node ≠ rs.local_node_id)
    (hnh : rs.table.get_next_hop env.destination_node = some next_hop)
    (hpeer : PeerManager.get_peer_record pm next_hop = some peer) :
    forward_message rs pm env =
      ({ rs with cache := env.route_id :: rs.cache },
       [(peer.addr,
         RoutedMessage.to_message { env with hop_count := env.hop_count + 1 })],
       .ok ()) := by
  have hw : decide (env.hop_count + 1 ≤ env.max_hops) = true := by
    simp [hmax]
  have hd : ({ env with hop_count := env.hop_count + 1 }).destination_node
      = env.destination_node := rfl
  rw [forward_message]
  simp only [hc, Bool.false_eq_true, if_false,
    RoutedMessage.increment_hop, cache_message_id, hw, Bool.not_true,
    hd, if_neg hdest, hnh, hpeer]

/-- Next hop resolved but the handle is dangling: routes via it are
removed and the envelope is broadcast. -/
theorem forward_missing_next_hop_eq {rs : RouterState} {pm : PMState}
    {env : RoutedMessage} {next_hop : Uuid}
    (hc : is_message_cached rs env.route_id = false)
    (hmax : env.hop_count + 1 ≤ env.max_hops)
    (hdest : env.destination_node ≠ rs.local_node_id)
    (hnh : rs.table.get_next_hop env.destination_node = some next_hop)
    (hpeer : PeerManager.get_peer_record pm next_hop = none) :
    forward_message rs pm env =
      ({ rs with
          table := rs.table.remove_routes_via next_hop,
          cache := env.route_id :: rs.cache },
       broadcast_sends pm { env with hop_count := env.hop_count + 1 },
       .ok ()) := by
  have hw : decide (env.hop_count + 1 ≤ env.max_hops) = true := by
    simp [hmax]
  have hd : ({ env with hop_count := env.hop_count + 1 }).destination_node
      = env.destination_node := rfl
  rw [forward_message]
  simp only [hc, Bool.false_eq_true, if_false,
    RoutedMessage.increment_hop, cache_message_id, hw, Bool.not_true,
    hd, if_neg hdest, hnh, hpeer]

end MessageRouter

/-! ## Concrete fixtures -/

/-- A concrete `NodeInfo` for witnesses. -/
def wNodeInfo (i : Uuid) (nid : String) : NodeInfo :=
  { id := i, name := "client1", version := "0.1.0",
    listen_addr := "127.0.0.1:18081", capabilities := ["handshake"],
    metadata := [], network_id := nid }

/-- A concrete authenticated peer record. -/
def wPeerAuth (i : Uuid) (a : Addr) (nid : String) : Peer :=
  { id := i, node_info := some (wNodeInfo i nid), addr := a,
    status := .authenticated, last_ping := none }

/-- An empty registry for router witnesses. -/
def wEmptyPM : PMState :=
  { store := [], next_ref := 0, peers := [], peers_by_addr := [],
    local_node_info := wNodeInfo 100 "test", max_connections := 16 }

/-- An empty router state with local node id 100. -/
def wEmptyRS : RouterState :=
  { table := { routes := [], distances := [] }, local_node_id := 100,
    cache := [] }

/-! ## Claim C4 -/

/-- C4: once `forward_message` has run on an envelope, a second call with
an envelope carrying the same route id (still within the dedup window —
no eviction runs between the calls) sends nothing, changes no router
state, and returns ok. -/
theorem C4_forward_message_duplicate_drop
    (rs : RouterState) (pm pm' : PMState) (env₁ env₂ : RoutedMessage)
    (h : env₂.route_id = env₁.route_id) :
    MessageRouter.forward_message
        (MessageRouter.forward_message rs pm env₁).1 pm' env₂ =
      ((MessageRouter.forward_message rs pm env₁).1, [], .ok ()) := by
  apply MessageRouter.forward_cached_noop
  rw [h]
  exact MessageRouter.route_id_cached_after_forward rs pm env₁

def c4env₁ : RoutedMessage :=
  { original_message := ⟨.data, .null⟩, source_node := 1,
    destination_node := 2, hop_count := 0, max_hops := 8, route_id := 42 }

def c4env₂ : RoutedMessage :=
  { original_message := ⟨.data, .other 7⟩, source_node := 3,
    destination_node := 4, hop_count := 0, max_hops := 8, route_id := 42 }

theorem C4_witness :
    MessageRouter.forward_message
        (MessageRouter.forward_message wEmptyRS wEmptyPM c4env₁).1
        wEmptyPM c4env₂ =
      ((MessageRouter.forward_message wEmptyRS wEmptyPM c4env₁).1, [],
       .ok ()) :=
  C4_forward_message_duplicate_drop wEmptyRS wEmptyPM wEmptyPM c4env₁ c4env₂
    rfl

/-! ## Claim C5 -/

def c5env : RoutedMessage :=
  { original_message := ⟨.data, .null⟩, source_node := 1,
    destination_node := 2, hop_count := 4294967295, max_hops := 8,
    route_id := 9 }

/-- C5 (code bug): at the failing input — an envelope arriving off the
wire with `hop_count = u32::MAX` and an uncached route id — the claim
(and the spec: unbounded HopCount, route exhaustion fails with the
max-hops error and no send) requires the call to fail, and the unbounded
model does exactly that, leaving the route id cached; but the source's
`u32` increment (`router.rs:113`) overflows there: a release build wraps
the hop count to 0, which passes the `hop_count <= max_hops` check, so
the real program forwards or broadcasts the envelope with a reset hop
count instead of failing (a debug build panics on the overflow). -/
theorem C5_hop_overflow_code_bug :
    c5env.hop_count + 1 > c5env.max_hops ∧
    MessageRouter.forward_message wEmptyRS wEmptyPM c5env =
      ({ wEmptyRS with cache := [9] }, [], .error "达到最大跳数限制") ∧
    (RoutedMessage.increment_hop_u32 c5env).1.hop_count = 0 ∧
    (RoutedMessage.increment_hop_u32 c5env).2 = true :=
  ⟨by decide, rfl, by decide, by decide⟩

/-! ## Claim C3 -/

def c3peer : Peer :=
  { id := 2, node_info := none, addr := "10.0.0.2:7000",
    status := .connecting, last_ping := none }

def c3pm : PMState :=
  { store := [(0, c3peer)], next_ref := 1, peers := [(2, 0)],
    peers_by_addr := [("10.0.0.2:7000", 0)],
    local_node_info := wNodeInfo 100 "test", max_connections := 16 }

def c3rs : RouterState :=
  { table := { routes := [(3, 2)], distances := [(3, 1)] },
    local_node_id := 100, cache := [] }

def c3env : RoutedMessage :=
  { original_message := ⟨.data, .null⟩, source_node := 4,
    destination_node := 3, hop_count := 0, max_hops := 8, route_id := 5 }

/-- C3 counterexample: the routing table resolves next hop 2, whose
record exists but is only `Connecting`, and it still receives the direct
forward — refuting "a non-Authenticated peer never receives the direct
forward". -/
theorem C3_counterexample :
    PeerManager.get_peer_record c3pm 2 = some c3peer ∧
    c3peer.status = .connecting ∧
    MessageRouter.forward_message c3rs c3pm c3env =
      ({ c3rs with cache := [5] },
       [(c3peer.addr,
         RoutedMessage.to_message { c3env with hop_count := 1 })],
       .ok ()) := ⟨rfl, rfl, rfl⟩

/-- C3 amended: when the routing table yields a next hop, the direct
forward happens iff the next-hop peer exists in the registry — its
status is not checked; when it is missing, the routes via it are removed
and the envelope falls through to broadcast. -/
theorem C3_amended_forward_next_hop
    (rs : RouterState) (pm : PMState) (env : RoutedMessage)
    (next_hop : Uuid)
    (hc : MessageRouter.is_message_cached rs env.route_id = false)
    (hmax : env.hop_count + 1 ≤ env.max_hops)
    (hdest : env.destination_node ≠ rs.local_node_id)
    (hnh : rs.table.get_next_hop env.destination_node = some next_hop) :
    (∀ peer, PeerManager.get_peer_record pm next_hop = some peer →
      MessageRouter.forward_message rs pm env =
        ({ rs with cache := env.route_id :: rs.cache },
         [(peer.addr, RoutedMessage.to_message
            { env with hop_count := env.hop_count + 1 })],
         .ok ())) ∧
    (PeerManager.get_peer_record pm next_hop = none →
      MessageRouter.forward_message rs pm env =
        ({ rs with
            table := rs.table.remove_routes_via next_hop,
            cache := env.route_id :: rs.cache },
         MessageRouter.broadcast_sends pm
           { env with hop_count := env.hop_count + 1 },
         .ok ())) :=
  ⟨fun _ hpeer => MessageRouter.forward_direct_eq hc hmax hdest hnh hpeer,
   fun hpeer =>
     MessageRouter.forward_missing_next_hop_eq hc hmax hdest hnh hpeer⟩

theorem C3_amended_witness :
    MessageRouter.forward_message c3rs c3pm c3env =
      ({ c3rs with cache := [5] },
       [(c3peer.addr,
         RoutedMessage.to_message { c3env with hop_count := 1 })],
       .ok ()) :=
  (C3_amended_forward_next_hop c3rs c3pm c3env 2 rfl (by decide) (by decide)
    rfl).1 c3peer rfl

/-! ## Claim C1 -/

/-- C1: the peer-info list the server computes for an authenticated peer
P — both in the `DiscoveryRequest` reply and in the debounced membership
broadcast — never contains an entry with P's id and contains an entry for
every other authenticated peer.  (`get_peer_info_list_excluding` is
modelled from the spec, its definition being absent from `src/`.) -/
theorem C1_peer_list_excludes_receiver
    (s : PMState) (k : Uuid) (r : Nat) (P : Peer)
    (hreg : alookup k s.peers = some r)
    (hderef : PeerManager.deref s r = some P)
    (hauth : P.status = .authenticated) :
    (P2PServer.handle_discovery_request s r =
      [(P.addr, Msg.discovery_response
        (PeerManager.get_peer_info_list_excluding s (some P.id)))]) ∧
    (∀ exclude_id, exclude_id ≠ some P.id →
      (P.addr, Msg.discovery_response
        (PeerManager.get_peer_info_list_excluding s (some P.id))) ∈
        P2PServer.debounced_broadcast_sends s exclude_id) ∧
    (∀ info ∈ PeerManager.get_peer_info_list_excluding s (some P.id),
      info.id ≠ P.id) ∧
    (∀ rq ∈ PeerManager.get_authenticated_peers s, rq.2.id ≠ P.id →
      ∃ info ∈ PeerManager.get_peer_info_list_excluding s (some P.id),
        info.id = rq.2.id) := by
  have hstore : alookup r s.store = some P := hderef
  have hPmem : (r, P) ∈ PeerManager.get_authenticated_peers s := by
    rw [PeerManager.get_authenticated_peers]
    refine List.mem_filterMap.mpr ⟨(k, r), mem_of_alookup_eq_some hreg, ?_⟩
    simp only [hstore, Peer.is_authenticated, hauth]
    rfl
  refine ⟨?_, ?_, ?_, ?_⟩
  · rw [P2PServer.handle_discovery_request, hderef]
  · intro exclude_id hex
    rw [P2PServer.debounced_broadcast_sends]
    refine List.mem_filterMap.mpr ⟨(r, P), hPmem, ?_⟩
    simp only [if_neg hex]
  · intro info hinfo
    rw [PeerManager.get_peer_info_list_excluding] at hinfo
    obtain ⟨rp, _, hf⟩ := List.mem_filterMap.mp hinfo
    by_cases hcond : some P.id = some rp.2.id
    · rw [if_pos hcond] at hf
      exact absurd hf (by simp)
    · rw [if_neg hcond] at hf
      have : info.id = rp.2.id := by
        rw [← (Option.some.injEq ..).mp hf]
      rw [this]
      intro he
      exact hcond (by rw [he])
  · intro rq hrq hne
    refine ⟨⟨rq.2.id, rq.2.addr,
      (rq.2.node_info.map NodeInfo.capabilities).getD []⟩, ?_, rfl⟩
    rw [PeerManager.get_peer_info_list_excluding]
    refine List.mem_filterMap.mpr ⟨rq, hrq, ?_⟩
    rw [if_neg ?_]
    intro hcond
    exact hne ((Option.some.injEq ..).mp hcond).symm

def c1peerP : Peer := wPeerAuth 1 "10.0.0.1:7001" "test"

def c1peerQ : Peer := wPeerAuth 2 "10.0.0.2:7002" "test"

def c1pm : PMState :=
  { store := [(0, c1peerP), (1, c1peerQ)], next_ref := 2,
    peers := [(1, 0), (2, 1)],
    peers_by_addr := [("10.0.0.1:7001", 0), ("10.0.0.2:7002", 1)],
    local_node_info := wNodeInfo 100 "test", max_connections := 16 }

theorem C1_witness :
    P2PServer.handle_discovery_request c1pm 0 =
      [(c1peerP.addr, Msg.discovery_response
        (PeerManager.get_peer_info_list_excluding c1pm (some c1peerP.id)))] :=
  (C1_peer_list_excludes_receiver c1pm 1 0 c1peerP rfl rfl rfl).1

/-! ## Claim C2 -/

namespace PeerManager

/-- On the success path the handler result is ok (no well-formedness
needed for the result component). -/
theorem hsr_success_ok {s : PMState} {r : Nat} {m : Msg} {peer : Peer}
    {ni : NodeInfo} (hderef : deref s r = some peer)
    (hval : validate_handshake_request m = .ok ni)
    (hnet : ni.network_id = s.local_node_info.network_id)
    (hdup : alookup ni.id s.peers = none)
    (hnonempty : ni.network_id ≠ "") :
    (handle_handshake_request s r m).2.2 = .ok () := by
  have h₁ : (ni.network_id ≠ s.local_node_info.network_id) = False := by
    simp [hnet]
  have h₂ : (alookup ni.id s.peers).isSome = false := by
    rw [hdup]
    rfl
  have h₃ : (ni.network_id = "") = False := by
    simp [hnonempty]
  rw [handle_handshake_request, hderef, hval]
  simp only [h₁, h₂, h₃, Bool.false_eq_true, if_false]

end PeerManager

def c2peer : Peer := PeerManager.Peer.new 10 "10.0.0.9:7009"

def c2pm : PMState :=
  { store := [(0, c2peer)], next_ref := 1, peers := [(10, 0)],
    peers_by_addr := [("10.0.0.9:7009", 0)],
    local_node_info := wNodeInfo 100 "test", max_connections := 16 }

def c2bad : Msg := ⟨.handshakeRequest, .other 0⟩

/-- C2 counterexample: a handshake request whose payload does not parse
as `NodeInfo` fails, but the handler returns before sending anything —
zero Error messages reach the originator, not exactly one. -/
theorem C2_counterexample :
    PeerManager.handle_handshake_request c2pm 0 c2bad =
      (c2pm, [], .error "握手请求验证失败: 解析节点信息失败") := rfl

/-- C2 amended: the network-id-mismatch, duplicate-id and missing-
network-id failures each send exactly one Error naming the failure
class; a validation failure (unparseable payload, empty name or version)
sends nothing; in every failure class the originator's record is either
untouched or moved to `Error`, so it is never added to the Authenticated
set. -/
theorem C2_amended_handshake_failure_replies
    (s : PMState) (r : Nat) (m : Msg) (peer : Peer)
    (hderef : PeerManager.deref s r = some peer) :
    (∀ e, validate_handshake_request m = .error e →
      PeerManager.handle_handshake_request s r m =
        (s, [], .error ("握手请求验证失败: " ++ e))) ∧
    (∀ ni, validate_handshake_request m = .ok ni →
      ni.network_id ≠ s.local_node_info.network_id →
      PeerManager.handle_handshake_request s r m =
        (s, [(peer.addr, Msg.error ("网络ID不匹配: 期望 "
           ++ s.local_node_info.network_id ++ "，收到 " ++ ni.network_id))],
         .error ("网络ID不匹配: 期望 "
           ++ s.local_node_info.network_id ++ "，收到 " ++ ni.network_id))) ∧
    (∀ ni r', validate_handshake_request m = .ok ni →
      ni.network_id = s.local_node_info.network_id →
      alookup ni.id s.peers = some r' →
      PeerManager.handle_handshake_request s r m =
        (s, [(peer.addr, Msg.error ("节点ID " ++ toString ni.id ++ " 已存在"))],
         .error ("节点ID " ++ toString ni.id ++ " 已存在"))) ∧
    (∀ ni, validate_handshake_request m = .ok ni →
      ni.network_id = s.local_node_info.network_id →
      alookup ni.id s.peers = none →
      ni.network_id = "" →
      PeerManager.handle_handshake_request s r m =
        ({ s with store :=
            ainsert r { peer with status := .errored "缺少 network_id" } s.store },
         [(peer.addr, Msg.error "握手请求缺少 network_id")],
         .error "缺少 network_id")) ∧
    (∀ e, (PeerManager.handle_handshake_request s r m).2.2 = .error e →
      ∀ q, PeerManager.deref (PeerManager.handle_handshake_request s r m).1 r
          = some q →
        q.status = peer.status ∨ q.status = .errored "缺少 network_id") := by
  refine ⟨?_, ?_, ?_, ?_, ?_⟩
  · intro e hval
    exact PeerManager.hsr_eq_validate_error hderef hval
  · intro ni hval hnet
    exact PeerManager.hsr_eq_mismatch hderef hval hnet
  · intro ni r' hval hnet hdup
    exact PeerManager.hsr_eq_duplicate hderef hval hnet hdup
  · intro ni hval hnet hdup hempty
    exact PeerManager.hsr_eq_missing_network_id hderef hval hnet hdup hempty
  · intro e he q hq
    cases hval : validate_handshake_request m with
    | error e' =>
      rw [PeerManager.hsr_eq_validate_error hderef hval] at hq
      have hq' : some peer = some q := by
        rw [← hderef]
        exact hq
      left
      rw [← (Option.some.injEq ..).mp hq']
    | ok ni =>
      by_cases hnet : ni.network_id = s.local_node_info.network_id
      · cases hdup : alookup ni.id s.peers with
        | some r' =>
          rw [PeerManager.hsr_eq_duplicate hderef hval hnet hdup] at hq
          have hq' : some peer = some q := by
            rw [← hderef]
            exact hq
          left
          rw [← (Option.some.injEq ..).mp hq']
        | none =>
          by_cases hempty : ni.network_id = ""
          · rw [PeerManager.hsr_eq_missing_network_id hderef hval hnet hdup
              hempty] at hq
            have hq' : alookup r (ainsert r
                (⟨peer.id, peer.node_info, peer.addr,
                  PeerStatus.errored "缺少 network_id", peer.last_ping⟩ : Peer)
                s.store) = some q := hq
            rw [alookup_ainsert_self] at hq'
            right
            rw [← (Option.some.injEq ..).mp hq']
          · have hok := PeerManager.hsr_success_ok hderef hval hnet hdup
              hempty
            rw [hok] at he
            exact Except.noConfusion he
      · rw [PeerManager.hsr_eq_mismatch hderef hval hnet] at hq
        have hq' : some peer = some q := by
          rw [← hderef]
          exact hq
        left
        rw [← (Option.some.injEq ..).mp hq']

def c2mismatch : Msg := ⟨.handshakeRequest, .nodeInfo (wNodeInfo 11 "other")⟩

theorem C2_amended_witness :
    PeerManager.handle_handshake_request c2pm 0 c2mismatch =
      (c2pm, [(c2peer.addr, Msg.error ("网络ID不匹配: 期望 "
         ++ c2pm.local_node_info.network_id ++ "，收到 "
         ++ (wNodeInfo 11 "other").network_id))],
       .error ("网络ID不匹配: 期望 " ++ c2pm.local_node_info.network_id
         ++ "，收到 " ++ (wNodeInfo 11 "other").network_id)) :=
  (C2_amended_handshake_failure_replies c2pm 0 c2mismatch c2peer rfl).2.1
    (wNodeInfo 11 "other") rfl (by decide)

/-! ## Claim C6 -/

/-- C6: a handshake request claiming an already registered node id
(reaching the duplicate check, i.e. after the network-id check passes)
fails: exactly one Error whose text contains "已存在" goes to the
originating address, the whole registry state is untouched — so the
existing holder's record, both indexes, and the claiming peer's record
are unchanged and the claimer does not become Authenticated. -/
theorem C6_duplicate_node_id_rejected
    (s : PMState) (r : Nat) (m : Msg) (peer : Peer) (ni : NodeInfo)
    (r' : Nat) (hderef : PeerManager.deref s r = some peer)
    (hval : validate_handshake_request m = .ok ni)
    (hnet : ni.network_id = s.local_node_info.network_id)
    (hdup : alookup ni.id s.peers = some r') :
    PeerManager.handle_handshake_request s r m =
      (s, [(peer.addr, Msg.error ("节点ID " ++ toString ni.id ++ " 已存在"))],
       .error ("节点ID " ++ toString ni.id ++ " 已存在")) ∧
    (∃ a b : List Char, ("节点ID " ++ toString ni.id ++ " 已存在").data =
      a ++ ("已存在" : String).data ++ b) ∧
    PeerManager.deref (PeerManager.handle_handshake_request s r m).1 r' =
      PeerManager.deref s r' ∧
    (PeerManager.handle_handshake_request s r m).1.peers = s.peers ∧
    (PeerManager.handle_handshake_request s r m).1.peers_by_addr =
      s.peers_by_addr ∧
    PeerManager.deref (PeerManager.handle_handshake_request s r m).1 r =
      some peer := by
  have heq := PeerManager.hsr_eq_duplicate hderef hval hnet hdup
  refine ⟨heq, ?_, ?_, ?_, ?_, ?_⟩
  · refine ⟨("节点ID " ++ toString ni.id ++ " ").data, [], ?_⟩
    have h₁ : (" 已存在" : String).data =
        (" " : String).data ++ ("已存在" : String).data := by decide
    simp [String.data_append, h₁, List.append_assoc]
  · rw [heq]
  · rw [heq]
  · rw [heq]
  · rw [heq]
    exact hderef

def c6msg : Msg := ⟨.handshakeRequest, .nodeInfo (wNodeInfo 1 "test")⟩

def c6pm : PMState :=
  { store := [(0, c1peerP), (2, c2peer)], next_ref := 3,
    peers := [(1, 0), (10, 2)],
    peers_by_addr := [("10.0.0.1:7001", 0), ("10.0.0.9:7009", 2)],
    local_node_info := wNodeInfo 100 "test", max_connections := 16 }

theorem C6_witness :
    PeerManager.handle_handshake_request c6pm 2 c6msg =
      (c6pm, [(c2peer.addr,
        Msg.error ("节点ID " ++ toString (1 : Uuid) ++ " 已存在"))],
       .error ("节点ID " ++ toString (1 : Uuid) ++ " 已存在")) :=
  (C6_duplicate_node_id_rejected c6pm 2 c6msg c2peer (wNodeInfo 1 "test") 0
    rfl rfl rfl rfl).1

/-! ## Claim C8 -/

/-- C8: on a successful handshake (payload validates, network id matches
and is non-empty, claimed id not present) the record at the peer's handle
gets the claimed id, the `NodeInfo`, and `Authenticated` status; the id
index maps the claimed id to that handle and no longer maps the pending
key; and exactly one `HandshakeResponse` with `success = true` whose
node info carries the client's network id is sent to the peer. -/
theorem C8_handshake_success_rekey
    (s : PMState) (k : Uuid) (r : Nat) (m : Msg) (peer : Peer)
    (ni : NodeInfo) (hwf : PeerManager.WfState s)
    (hreg : alookup k s.peers = some r)
    (hderef : PeerManager.deref s r = some peer)
    (hval : validate_handshake_request m = .ok ni)
    (hnet : ni.network_id = s.local_node_info.network_id)
    (hdup : alookup ni.id s.peers = none)
    (hnonempty : ni.network_id ≠ "") :
    PeerManager.deref (PeerManager.handle_handshake_request s r m).1 r =
      some { peer with
        id := ni.id, node_info := some ni, status := .authenticated } ∧
    PeerManager.get_peer (PeerManager.handle_handshake_request s r m).1 ni.id
      = some r ∧
    PeerManager.get_peer (PeerManager.handle_handshake_request s r m).1 k
      = none ∧
    (PeerManager.handle_handshake_request s r m).2.1 =
      [(peer.addr, Msg.handshake_response
        { s.local_node_info with network_id := ni.network_id } true)] ∧
    (PeerManager.handle_handshake_request s r m).2.2 = .ok () := by
  have heq := PeerManager.hsr_eq_success hwf hderef hval hnet hdup hnonempty
    hreg
  have hkni : k ≠ ni.id := by
    intro he
    rw [he, hdup] at hreg
    exact Option.noConfusion hreg
  refine ⟨?_, ?_, ?_, ?_, ?_⟩
  · rw [heq]
    exact alookup_ainsert_self ..
  · rw [heq]
    exact alookup_ainsert_self ..
  · rw [heq]
    show alookup k (ainsert ni.id r (aerase k s.peers)) = none
    rw [alookup_ainsert_ne _ _ hkni]
    exact alookup_aerase_self ..
  · rw [heq]
  · rw [heq]

def c8msg : Msg := ⟨.handshakeRequest, .nodeInfo (wNodeInfo 1 "test")⟩

theorem wf_c2pm : PeerManager.WfState c2pm := by
  refine ⟨?_, ?_, ?_⟩
  · intro kv hkv
    have hkv' : kv = (10, 0) := by simpa [c2pm] using hkv
    subst hkv'
    exact ⟨c2peer, rfl, rfl, rfl⟩
  · intro kv hkv
    have hkv' : kv = (0, c2peer) := by simpa [c2pm] using hkv
    subst hkv'
    decide
  · decide

theorem C8_witness :
    PeerManager.deref
        (PeerManager.handle_handshake_request c2pm 0 c8msg).1 0 =
      some { c2peer with
        id := 1, node_info := some (wNodeInfo 1 "test"),
        status := .authenticated } :=
  (C8_handshake_success_rekey c2pm 10 0 c8msg c2peer (wNodeInfo 1 "test")
    wf_c2pm rfl rfl rfl rfl rfl (by decide)).1

/-! ## Claim C10 -/

/-- C10: among the handshake failure classes, only the missing-network-id
failure mutates the requesting peer's record (status becomes `Error`,
all other fields and the rest of the state unchanged); a network-id
mismatch and a duplicate node id leave the whole state — in particular
the requesting peer's status (`Connecting` for a fresh peer) — exactly
as it was. -/
theorem C10_failure_frame_effects
    (s : PMState) (r : Nat) (m : Msg) (peer : Peer)
    (hderef : PeerManager.deref s r = some peer) :
    (∀ ni, validate_handshake_request m = .ok ni →
      ni.network_id ≠ s.local_node_info.network_id →
      (PeerManager.handle_handshake_request s r m).1 = s) ∧
    (∀ ni r', validate_handshake_request m = .ok ni →
      ni.network_id = s.local_node_info.network_id →
      alookup ni.id s.peers = some r' →
      (PeerManager.handle_handshake_request s r m).1 = s) ∧
    (∀ ni, validate_handshake_request m = .ok ni →
      ni.network_id = s.local_node_info.network_id →
      alookup ni.id s.peers = none →
      ni.network_id = "" →
      PeerManager.deref (PeerManager.handle_handshake_request s r m).1 r =
          some { peer with status := .errored "缺少 network_id" } ∧
        (PeerManager.handle_handshake_request s r m).1.peers = s.peers ∧
        (PeerManager.handle_handshake_request s r m).1.peers_by_addr =
          s.peers_by_addr ∧
        (PeerManager.handle_handshake_request s r m).1.next_ref =
          s.next_ref ∧
        (∀ r₂, r₂ ≠ r →
          PeerManager.deref (PeerManager.handle_handshake_request s r m).1 r₂
            = PeerManager.deref s r₂)) := by
  refine ⟨?_, ?_, ?_⟩
  · intro ni hval hnet
    rw [PeerManager.hsr_eq_mismatch hderef hval hnet]
  · intro ni r' hval hnet hdup
    rw [PeerManager.hsr_eq_duplicate hderef hval hnet hdup]
  · intro ni hval hnet hdup hempty
    have heq := PeerManager.hsr_eq_missing_network_id hderef hval hnet hdup
      hempty
    refine ⟨?_, ?_, ?_, ?_, ?_⟩
    · rw [heq]
      exact alookup_ainsert_self ..
    · rw [heq]
    · rw [heq]
    · rw [heq]
    · intro r₂ hne
      rw [heq]
      show alookup r₂
        (ainsert r { peer with status := .errored "缺少 network_id" } s.store)
          = alookup r₂ s.store
      exact alookup_ainsert_ne _ _ hne

theorem C10_witness :
    (PeerManager.handle_handshake_request c2pm 0 c2mismatch).1 = c2pm :=
  (C10_failure_frame_effects c2pm 0 c2mismatch c2peer rfl).1
    (wNodeInfo 11 "other") rfl (by decide)

/-! ## Claim C7 -/

/-- C7: on a `P2PConnect` from requester R naming target T: T = R's own
id yields a single Error to R; an unknown T or a non-authenticated
holder yields a single Error to R; otherwise R receives a `P2PConnect`
carrying T's observed address and T receives one carrying R's observed
address — and in every case the handler changes no state. -/
theorem C7_p2p_connect_brokering
    (s : PMState) (r : Nat) (m : Msg) (peer : Peer) (target_id : Uuid)
    (hderef : PeerManager.deref s r = some peer)
    (hpid : P2PServer.payload_peer_id m.payload = some target_id) :
    ((P2PServer.handle_p2p_connect s r m).1 = s) ∧
    (peer.id = target_id →
      P2PServer.handle_p2p_connect s r m =
        (s, [(peer.addr, Msg.error "不能与自身建立直连")])) ∧
    (peer.id ≠ target_id →
      PeerManager.get_peer_record s target_id = none →
      P2PServer.handle_p2p_connect s r m =
        (s, [(peer.addr,
          Msg.error ("目标节点未找到或不可达: " ++ toString target_id))])) ∧
    (∀ tp, peer.id ≠ target_id →
      PeerManager.get_peer_record s target_id = some tp →
      tp.status ≠ .authenticated →
      P2PServer.handle_p2p_connect s r m =
        (s, [(peer.addr,
          Msg.error ("目标节点未认证: " ++ toString target_id))])) ∧
    (∀ tp, peer.id ≠ target_id →
      PeerManager.get_peer_record s target_id = some tp →
      tp.status = .authenticated →
      P2PServer.handle_p2p_connect s r m =
        (s, [(peer.addr,
              ⟨.p2pConnect, .p2p (some target_id) (some tp.addr)⟩),
             (tp.addr,
              ⟨.p2pConnect, .p2p (some peer.id) (some peer.addr)⟩)])) := by
  refine ⟨?_, ?_, ?_, ?_, ?_⟩
  · rw [P2PServer.handle_p2p_connect]
    repeat first | rfl | split
  · intro hself
    simp only [P2PServer.handle_p2p_connect, hderef, hpid, if_pos hself]
  · intro hne hnone
    simp only [P2PServer.handle_p2p_connect, hderef, hpid, if_neg hne,
      hnone]
  · intro tp hne hsome hnauth
    have hb : tp.is_authenticated = false := by
      simp [Peer.is_authenticated, hnauth]
    simp only [P2PServer.handle_p2p_connect, hderef, hpid, if_neg hne,
      hsome, hb, Bool.not_false, if_true]
  · intro tp hne hsome hauth
    have hb : tp.is_authenticated = true := by
      simp [Peer.is_authenticated, hauth]
    simp only [P2PServer.handle_p2p_connect, hderef, hpid, if_neg hne,
      hsome, hb, Bool.not_true, Bool.false_eq_true, if_false]

theorem C7_witness :
    P2PServer.handle_p2p_connect c1pm 0 ⟨.p2pConnect, .p2p (some 2) none⟩ =
      (c1pm,
       [(c1peerP.addr, ⟨.p2pConnect, .p2p (some 2) (some c1peerQ.addr)⟩),
        (c1peerQ.addr,
         ⟨.p2pConnect, .p2p (some c1peerP.id) (some c1peerP.addr)⟩)]) :=
  (C7_p2p_connect_brokering c1pm 0 ⟨.p2pConnect, .p2p (some 2) none⟩
    c1peerP 2 rfl rfl).2.2.2.2 c1peerQ (by decide) rfl rfl

/-! ## Claim C9 -/

def c9broken : PMState :=
  { store := [(2, PeerManager.Peer.new 7 "10.0.0.1:7001"), (0, c1peerP),
              (1, c1peerQ)],
    next_ref := 3, peers := [(7, 2), (1, 0), (2, 1)],
    peers_by_addr := [("10.0.0.1:7001", 2), ("10.0.0.2:7002", 1)],
    local_node_info := wNodeInfo 100 "test", max_connections := 16 }

/-- C9 counterexample: `add_peer` on a state satisfying P2, with a
connection address already held by an authenticated peer, overwrites the
address index entry: afterwards `get_peer_by_addr` and `get_peer` for
that authenticated peer disagree, so `AddPeer` does not preserve the
invariant. -/
theorem C9_counterexample :
    PeerManager.registry_consistent c1pm = true ∧
    PeerManager.add_peer c1pm 7 "10.0.0.1:7001" = .ok (c9broken, 2) ∧
    PeerManager.registry_consistent c9broken = false :=
  ⟨by decide, rfl, by decide⟩

/-- C9 amended: the well-formedness invariant (each id-index entry
dereferences to a record keyed by its own id and indexed back by its own
address) implies P2 — `get_peer(p.id)` and `get_peer_by_addr(p.addr)`
agree on every authenticated peer — and it is preserved by `remove_peer`,
`get_or_create_peer_by_addr`, the handshake rekey (for a registered
handle) and `cleanup_disconnected_peers`; `add_peer` preserves it only
when the connection address is not already indexed, which is the sole
way the server invokes it (through `get_or_create_peer_by_addr`). -/
theorem C9_amended_registry_invariant :
    (∀ s : PMState, PeerManager.WfState s →
      PeerManager.registry_consistent s = true) ∧
    (∀ (s s' : PMState) (fresh_id : Uuid) (conn_addr : Addr) (r : Nat),
      PeerManager.WfState s →
      alookup conn_addr s.peers_by_addr = none →
      PeerManager.add_peer s fresh_id conn_addr = .ok (s', r) →
      PeerManager.WfState s') ∧
    (∀ (s : PMState) (peer_id : Uuid), PeerManager.WfState s →
      PeerManager.WfState (PeerManager.remove_peer s peer_id).1) ∧
    (∀ (s s' : PMState) (fresh_id : Uuid) (conn_addr : Addr) (r : Nat),
      PeerManager.WfState s →
      PeerManager.get_or_create_peer_by_addr s fresh_id conn_addr
        = .ok (s', r) →
      PeerManager.WfState s') ∧
    (∀ (s : PMState) (r : Nat) (m : Msg), PeerManager.WfState s →
      (∃ k, alookup k s.peers = some r) →
      PeerManager.WfState (PeerManager.handle_handshake_request s r m).1) ∧
    (∀ s : PMState, PeerManager.WfState s →
      PeerManager.WfState (PeerManager.cleanup_disconnected_peers s)) :=
  ⟨fun _ h => PeerManager.registry_consistent_of_wf h,
   fun _ _ _ _ _ hwf haddr h => PeerManager.wf_add_peer hwf haddr h,
   fun _ peer_id hwf => PeerManager.wf_remove_peer peer_id hwf,
   fun _ _ _ _ _ hwf h => PeerManager.wf_get_or_create_peer_by_addr hwf h,
   fun _ _ _ hwf hreg => PeerManager.wf_handle_handshake_request hwf hreg,
   fun _ hwf => PeerManager.wf_cleanup_disconnected_peers hwf⟩

theorem wf_c1pm : PeerManager.WfState c1pm := by
  refine ⟨?_, ?_, ?_⟩
  · intro kv hkv
    rcases (by simpa [c1pm] using hkv : kv = (1, 0) ∨ kv = (2, 1)) with h | h
    · subst h
      exact ⟨c1peerP, rfl, rfl, rfl⟩
    · subst h
      exact ⟨c1peerQ, rfl, rfl, rfl⟩
  · intro kv hkv
    rcases (by simpa [c1pm] using hkv :
      kv = (0, c1peerP) ∨ kv = (1, c1peerQ)) with h | h
    · subst h
      decide
    · subst h
      decide
  · decide

theorem C9_amended_witness :
    PeerManager.registry_consistent (PeerManager.remove_peer c1pm 1).1
      = true :=
  C9_amended_registry_invariant.1 _
    (C9_amended_registry_invariant.2.2.1 c1pm 1 wf_c1pm)
